import Mathlib

/-!
Verification development for the lendsqr-be-test wallet ledger service.

We give a shallow embedding of the ledger core in Lean 4 and prove the
specified properties about it.  The embedding mirrors the source:

* `src/src/services/WalletService.ts` — wallet creation, funding,
  withdrawal, transfer, all executed inside a store transaction
  (`db.transaction`); a thrown error rolls the whole unit back, which the
  embedding models by returning `Except.error` without a new store.
* `UserService.createUser` — duplicate checks, blacklist gate, atomic
  user-plus-wallet creation.
* `src/src/services/BlacklistService.ts` — fail-closed blacklist check.
* `src/src/services/AuthService.ts` — token invalidation.
* the controller validation rules (`validateFundWallet` et al.) — the
  boundary check that an amount has at most two decimal places.

Monetary values are modelled as rationals; the store columns are
DECIMAL(15,2).  Row ids are natural numbers; the store keeps the next
auto-increment value for each table.
-/

namespace LedgerSpec

/-- Transaction kind: the `type` enum column on `transactions`. -/
inductive TxType where
  | credit
  | debit
deriving Repr, DecidableEq

/-- A row of the `transactions` table (columns from the migration:
id, wallet_id, type, amount, description, balance_before, balance_after,
reference_id, reference_type; timestamps are not modelled). -/
structure Transaction where
  id : Nat
  wallet_id : Nat
  type : TxType
  amount : ℚ
  description : String
  balance_before : ℚ
  balance_after : ℚ
  reference_id : Option Nat
  reference_type : String
deriving Repr, DecidableEq

/-- A row of the `wallets` table (id, user_id, balance). -/
structure Wallet where
  id : Nat
  user_id : Nat
  balance : ℚ
deriving Repr, DecidableEq

/-- A row of the `users` table (the fields the ledger core reads). -/
structure User where
  id : Nat
  email : String
  phone_number : String
deriving Repr, DecidableEq

/-- The relational store: the tables the ledger touches plus the next
auto-increment id for each of them.  Lists model tables in insertion
order. -/
structure Store where
  users : List User
  wallets : List Wallet
  transactions : List Transaction
  nextUserId : Nat
  nextWalletId : Nat
  nextTxId : Nat
deriving Repr, DecidableEq

/-- The error outcomes the ledger core throws.  Each constructor stands
for one `throw new Error(...)` site; the message strings of the source
are recorded in the doc comments of the operations below. -/
inductive WErr where
  | invalidAmount
  | walletNotFound
  | senderWalletNotFound
  | recipientUserNotFound
  | recipientWalletNotFound
  | selfTransferNotAllowed
  | insufficientBalance
  | emailConflict
  | phoneConflict
  | onboardingRejected (reason : String)
deriving Repr, DecidableEq

/-- `WalletService.createWallet` (WalletService.ts, lines 23-40): inserts a
zero-balance wallet for `userId` and returns it.  The insert is performed
on the caller-supplied transaction handle, hence no failure path in the
model (the re-fetch cannot miss the row it just inserted). -/
def createWallet (s : Store) (userId : Nat) : Store × Wallet :=
  let w : Wallet := { id := s.nextWalletId, user_id := userId, balance := 0 }
  ({ s with wallets := s.wallets ++ [w], nextWalletId := s.nextWalletId + 1 }, w)

/-- `WalletService.fundWallet` (WalletService.ts, lines 60-103).
Throws "Amount must be greater than zero" when `amount <= 0` (before the
store transaction starts), "Wallet not found" when the user has no wallet;
otherwise locks the wallet row, computes `after = before + amount`, writes
the balance and appends a credit transaction with
`reference_type = "funding"`. -/
def fundWallet (s : Store) (userId : Nat) (amount : ℚ)
    (description : Option String) : Except WErr (Store × Transaction) :=
  if amount ≤ 0 then .error .invalidAmount
  else
    match s.wallets.find? (fun w => w.user_id == userId) with
    | none => .error .walletNotFound
    | some w =>
      let balanceBefore := w.balance
      let balanceAfter := balanceBefore + amount
      let wallets₁ := s.wallets.map
        (fun x => if x.id == w.id then { x with balance := balanceAfter } else x)
      let tx : Transaction :=
        { id := s.nextTxId
          wallet_id := w.id
          type := .credit
          amount := amount
          description := description.getD "Wallet funding"
          balance_before := balanceBefore
          balance_after := balanceAfter
          reference_id := none
          reference_type := "funding" }
      .ok ({ s with wallets := wallets₁,
                    transactions := s.transactions ++ [tx],
                    nextTxId := s.nextTxId + 1 }, tx)

/-- `WalletService.withdrawFunds` (WalletService.ts, lines 203-249).
Throws "Amount must be greater than zero" when `amount <= 0`,
"Wallet not found", and "Insufficient balance" when the balance read under
the row lock is below `amount`; otherwise writes `before - amount` and
appends a debit transaction with `reference_type = "withdrawal"`. -/
def withdrawFunds (s : Store) (userId : Nat) (amount : ℚ)
    (description : Option String) : Except WErr (Store × Transaction) :=
  if amount ≤ 0 then .error .invalidAmount
  else
    match s.wallets.find? (fun w => w.user_id == userId) with
    | none => .error .walletNotFound
    | some w =>
      let balanceBefore := w.balance
      if balanceBefore < amount then .error .insufficientBalance
      else
        let balanceAfter := balanceBefore - amount
        let wallets₁ := s.wallets.map
          (fun x => if x.id == w.id then { x with balance := balanceAfter } else x)
        let tx : Transaction :=
          { id := s.nextTxId
            wallet_id := w.id
            type := .debit
            amount := amount
            description := description.getD "Withdrawal"
            balance_before := balanceBefore
            balance_after := balanceAfter
            reference_id := none
            reference_type := "withdrawal" }
        .ok ({ s with wallets := wallets₁,
                      transactions := s.transactions ++ [tx],
                      nextTxId := s.nextTxId + 1 }, tx)

/-- `WalletService.transferFunds` (WalletService.ts, lines 105-201),
step by step in source order: amount check; lock sender wallet (by
user_id, FOR UPDATE); resolve recipient user by email; reject transfer to
self ("Cannot transfer to your own wallet"); lock recipient wallet; check
"Insufficient balance" against the sender balance read under the lock;
update both balances; insert the debit leg (no reference yet), insert the
credit leg referencing the debit, then update the debit leg to reference
the credit leg; return both legs as re-read after that update. -/
def transferFunds (s : Store) (senderId : Nat) (recipientEmail : String)
    (amount : ℚ) (description : Option String) :
    Except WErr (Store × Transaction × Transaction) :=
  if amount ≤ 0 then .error .invalidAmount
  else
    match s.wallets.find? (fun w => w.user_id == senderId) with
    | none => .error .senderWalletNotFound
    | some senderWallet =>
      match s.users.find? (fun u => u.email == recipientEmail) with
      | none => .error .recipientUserNotFound
      | some recipientUser =>
        if recipientUser.id == senderId then .error .selfTransferNotAllowed
        else
          match s.wallets.find? (fun w => w.user_id == recipientUser.id) with
          | none => .error .recipientWalletNotFound
          | some recipientWallet =>
            if senderWallet.balance < amount then .error .insufficientBalance
            else
              let senderBalanceBefore := senderWallet.balance
              let recipientBalanceBefore := recipientWallet.balance
              let senderBalanceAfter := senderBalanceBefore - amount
              let recipientBalanceAfter := recipientBalanceBefore + amount
              let wallets₁ := s.wallets.map
                (fun x => if x.id == senderWallet.id then
                  { x with balance := senderBalanceAfter } else x)
              let wallets₂ := wallets₁.map
                (fun x => if x.id == recipientWallet.id then
                  { x with balance := recipientBalanceAfter } else x)
              let senderTxId := s.nextTxId
              let recipientTxId := s.nextTxId + 1
              let senderTx₀ : Transaction :=
                { id := senderTxId
                  wallet_id := senderWallet.id
                  type := .debit
                  amount := amount
                  description := description.getD ("Transfer to " ++ recipientEmail)
                  balance_before := senderBalanceBefore
                  balance_after := senderBalanceAfter
                  reference_id := none
                  reference_type := "transfer" }
              let recipientTx : Transaction :=
                { id := recipientTxId
                  wallet_id := recipientWallet.id
                  type := .credit
                  amount := amount
                  description := description.getD ("Transfer from " ++ toString senderId)
                  balance_before := recipientBalanceBefore
                  balance_after := recipientBalanceAfter
                  reference_id := some senderTxId
                  reference_type := "transfer" }
              let txs₁ := s.transactions ++ [senderTx₀, recipientTx]
              let txs₂ := txs₁.map
                (fun t => if t.id == senderTxId then
                  { t with reference_id := some recipientTxId } else t)
              let senderTx : Transaction := { senderTx₀ with reference_id := some recipientTxId }
              .ok ({ s with wallets := wallets₂,
                            transactions := txs₂,
                            nextTxId := s.nextTxId + 2 }, senderTx, recipientTx)

/-- The sequence of wallet-row ids on which `transferFunds` issues its
`SELECT ... FOR UPDATE` locks, in acquisition order (WalletService.ts,
lines 119-140): the sender wallet is always locked first, then — after the
recipient is resolved and the self check passes — the recipient wallet.
`none` when the very first lookup finds no sender wallet. -/
def transferLockOrder (s : Store) (senderId : Nat) (recipientEmail : String) :
    Option (List Nat) :=
  match s.wallets.find? (fun w => w.user_id == senderId) with
  | none => none
  | some senderWallet =>
    match s.users.find? (fun u => u.email == recipientEmail) with
    | none => some [senderWallet.id]
    | some recipientUser =>
      if recipientUser.id == senderId then some [senderWallet.id]
      else
        match s.wallets.find? (fun w => w.user_id == recipientUser.id) with
        | none => some [senderWallet.id]
        | some recipientWallet => some [senderWallet.id, recipientWallet.id]

/-- Result type of the blacklist check (`BlacklistCheckResult` in
`src/types/index.ts`): a verdict plus an optional human-readable reason. -/
structure BlacklistCheckResult where
  isBlacklisted : Bool
  reason : Option String
deriving Repr, DecidableEq

/-- The fields of the reputation-service payload that
`BlacklistService.checkBlacklist` inspects (`BlacklistApiResponse`):
`status`, `reason` and `karma.blacklist`, all optional. -/
structure BlacklistApiResponse where
  status : Option String
  reason : Option String
  karmaBlacklist : Option Bool
deriving Repr, DecidableEq

/-- The possible outcomes of the `fetch` call inside
`BlacklistService.checkBlacklist`: the call throws (network error, or the
abort controller fires on the 5s timeout), or it yields an HTTP response
with an `ok` flag and a body; `body = none` means `response.json()` throws
(malformed response), which lands in the same catch block as a network
error. -/
inductive FetchOutcome where
  | thrown
  | httpResponse (ok : Bool) (body : Option BlacklistApiResponse)
deriving Repr, DecidableEq

/-- `BlacklistService.checkBlacklist` (BlacklistService.ts, lines 28-73) as
a function of the fetch outcome.  A thrown fetch or a malformed body is
caught and mapped to a blacklisted verdict; a non-ok status is mapped to a
blacklisted verdict; an ok response is admitted exactly when its payload
indicates neither `status == "blacklisted"` nor `karma.blacklist == true`. -/
def checkBlacklist (o : FetchOutcome) : BlacklistCheckResult :=
  match o with
  | .thrown =>
    { isBlacklisted := true
      reason := some "Unable to verify blacklist status - treating as blacklisted for safety" }
  | .httpResponse ok body =>
    if !ok then
      { isBlacklisted := true
        reason := some "Blacklist verification service unavailable" }
    else
      match body with
      | none =>
        { isBlacklisted := true
          reason := some "Unable to verify blacklist status - treating as blacklisted for safety" }
      | some data =>
        if data.status == some "blacklisted" || data.karmaBlacklist == some true then
          { isBlacklisted := true
            reason := some (data.reason.getD "User found in blacklist") }
        else
          { isBlacklisted := false, reason := none }

/-- `UserService.createUser` (defined with the service tests of this
repository, `src/src/services/__tests__/WalletService.test.ts`): checks
the email for duplicates, then the phone number, then the blacklist —
all before any write — and only then inserts the user and its wallet
inside one `db.transaction`.  The blacklist verdict is passed in as a
value, `checkBlacklist` being modelled separately. -/
def createUser (s : Store) (blacklist : BlacklistCheckResult)
    (email phoneNumber : String) : Except WErr (Store × User) :=
  if (s.users.find? (fun u => u.email == email)).isSome then
    .error .emailConflict
  else if (s.users.find? (fun u => u.phone_number == phoneNumber)).isSome then
    .error .phoneConflict
  else if blacklist.isBlacklisted then
    .error (.onboardingRejected (blacklist.reason.getD "User is blacklisted"))
  else
    let user : User := { id := s.nextUserId, email := email, phone_number := phoneNumber }
    let s₁ : Store := { s with users := s.users ++ [user], nextUserId := s.nextUserId + 1 }
    let (s₂, _) := createWallet s₁ user.id
    .ok (s₂, user)

/-- A row of the `auth_tokens` table (the fields the invalidation paths
touch: owning user, token string, active flag; expiry is kept for
fidelity). -/
structure AuthToken where
  user_id : Nat
  token : String
  expires_at : Int
  is_active : Bool
deriving Repr, DecidableEq

/-- `AuthService.invalidateToken` (AuthService.ts, lines 118-122):
`UPDATE auth_tokens SET is_active = false WHERE token = ?`.  Rows are
updated in place, never deleted; a token that matches no row leaves the
table unchanged. -/
def invalidateToken (tokens : List AuthToken) (token : String) : List AuthToken :=
  tokens.map (fun r => if r.token == token then { r with is_active := false } else r)

/-- `AuthService.invalidateAllUserTokens` (AuthService.ts, lines 129-133):
`UPDATE auth_tokens SET is_active = false WHERE user_id = ?`. -/
def invalidateAllUserTokens (tokens : List AuthToken) (userId : Nat) : List AuthToken :=
  tokens.map (fun r => if r.user_id == userId then { r with is_active := false } else r)

/-- An amount has at most two fractional decimal digits exactly when its
reduced denominator divides 100.  This is the numeric content of the
custom check in the controller validators, which splits the decimal
representation of the amount and rejects a fractional part longer than
two digits. -/
def hasAtMostTwoDecimals (q : ℚ) : Bool :=
  100 % q.den == 0

/-- The `amount` rule of `validateFundWallet` (and identically of
`validateTransferFunds` / `validateWithdrawFunds`) in the wallet
controller: `isFloat({ min: 0.01 })` plus the custom two-decimal-places
check. -/
def validAmountAtBoundary (q : ℚ) : Bool :=
  (mkRat 1 100 ≤ q : Bool) && hasAtMostTwoDecimals q

/-- Sum of the amounts of the transactions of wallet `wid` with kind
`ty` — the reconciliation sums `sum(credits)` and `sum(debits)` of the
spec. -/
def txSum (txs : List Transaction) (wid : Nat) (ty : TxType) : ℚ :=
  ((txs.filter (fun t => t.wallet_id == wid && t.type == ty)).map
    Transaction.amount).sum

/-- Reconciliation invariant for one wallet: its balance is the credit sum
minus the debit sum of its transaction log, and it is not negative. -/
def walletReconciled (s : Store) (w : Wallet) : Prop :=
  w.balance = txSum s.transactions w.id .credit - txSum s.transactions w.id .debit
    ∧ 0 ≤ w.balance

instance (s : Store) (w : Wallet) : Decidable (walletReconciled s w) := by
  unfold walletReconciled; infer_instance

/-- Reconciliation invariant for the whole store. -/
def reconciled (s : Store) : Prop :=
  ∀ w ∈ s.wallets, walletReconciled s w

instance (s : Store) : Decidable (reconciled s) := by
  unfold reconciled; infer_instance

/-- Structural integrity of the store, guaranteed by the schema: wallet
primary keys are unique, auto-increment counters are ahead of every
existing row, and transactions only reference already-created wallets. -/
def StoreOk (s : Store) : Prop :=
  (s.wallets.map Wallet.id).Nodup
    ∧ (∀ w ∈ s.wallets, w.id < s.nextWalletId)
    ∧ (∀ t ∈ s.transactions, t.wallet_id < s.nextWalletId)
    ∧ (∀ t ∈ s.transactions, t.id < s.nextTxId)

instance (s : Store) : Decidable (StoreOk s) := by
  unfold StoreOk; infer_instance

/-- A small concrete store used by the witnesses: two users, two wallets
(user 1 holds 100 after one funding transaction, user 2 holds 0). -/
def demoStore : Store :=
  { users := [ { id := 1, email := "alice@example.com", phone_number := "+2348000000001" }
             , { id := 2, email := "bob@example.com", phone_number := "+2348000000002" } ]
    wallets := [ { id := 1, user_id := 1, balance := 100 }
               , { id := 2, user_id := 2, balance := 0 } ]
    transactions := [ { id := 0, wallet_id := 1, type := .credit, amount := 100,
                        description := "Wallet funding", balance_before := 0,
                        balance_after := 100, reference_id := none,
                        reference_type := "funding" } ]
    nextUserId := 3
    nextWalletId := 3
    nextTxId := 1 }

/-- C4: `fundWallet`, `withdrawFunds` and `transferFunds` each reject a
non-positive amount with `InvalidAmount` ("Amount must be greater than
zero") before touching the store; the error outcome carries no store,
modelling that the check fires before the store transaction starts, so no
balance changes and no transaction row is written for any wallet. -/
theorem nonpositive_amount_rejected (s : Store) (userId senderId : Nat)
    (recipientEmail : String) (amount : ℚ) (description : Option String)
    (h : amount ≤ 0) :
    fundWallet s userId amount description = .error .invalidAmount
      ∧ withdrawFunds s userId amount description = .error .invalidAmount
      ∧ transferFunds s senderId recipientEmail amount description
          = .error .invalidAmount := by
  refine ⟨?_, ?_, ?_⟩ <;> simp [fundWallet, withdrawFunds, transferFunds, h]

/-- C4 witness: amount 0 against the demo store. -/
theorem nonpositive_amount_rejected_witness :
    fundWallet demoStore 1 0 none = .error .invalidAmount
      ∧ withdrawFunds demoStore 1 0 none = .error .invalidAmount
      ∧ transferFunds demoStore 1 "bob@example.com" 0 none
          = .error .invalidAmount :=
  nonpositive_amount_rejected demoStore 1 1 "bob@example.com" 0 none (by norm_num)

/-- C3: a positive withdrawal or transfer whose amount exceeds the balance
read from the locked wallet row fails with `InsufficientBalance` ("Insufficient
balance") and returns no store — the surrounding `db.transaction` rolls
back, so the balance is unchanged and no transaction row is appended.  The
check compares against the balance of the row just read FOR UPDATE inside
the atomic unit, not a value read earlier. -/
theorem insufficient_balance_rejected (s : Store) (userId senderId : Nat)
    (recipientEmail : String) (amount : ℚ) (description : Option String)
    (w senderWallet recipientWallet : Wallet) (recipientUser : User)
    (hpos : 0 < amount)
    (hw : s.wallets.find? (fun x => x.user_id == userId) = some w)
    (hlt : w.balance < amount)
    (hsw : s.wallets.find? (fun x => x.user_id == senderId) = some senderWallet)
    (hru : s.users.find? (fun u => u.email == recipientEmail) = some recipientUser)
    (hne : recipientUser.id ≠ senderId)
    (hrw : s.wallets.find? (fun x => x.user_id == recipientUser.id) = some recipientWallet)
    (hslt : senderWallet.balance < amount) :
    withdrawFunds s userId amount description = .error .insufficientBalance
      ∧ transferFunds s senderId recipientEmail amount description
          = .error .insufficientBalance := by
  have hnle : ¬ amount ≤ 0 := not_le.mpr hpos
  constructor
  · simp [withdrawFunds, hnle, hw, hlt]
  · simp [transferFunds, hnle, hsw, hru, hne, hrw, hslt]

/-- C3 witness: withdrawing 200 from wallet 1 (balance 100) and
transferring 200 from user 1 to user 2 both fail with
`InsufficientBalance`. -/
theorem insufficient_balance_rejected_witness :
    withdrawFunds demoStore 1 200 none = .error .insufficientBalance
      ∧ transferFunds demoStore 1 "bob@example.com" 200 none
          = .error .insufficientBalance :=
  insufficient_balance_rejected demoStore 1 1 "bob@example.com" 200 none
    { id := 1, user_id := 1, balance := 100 }
    { id := 1, user_id := 1, balance := 100 }
    { id := 2, user_id := 2, balance := 0 }
    { id := 2, email := "bob@example.com", phone_number := "+2348000000002" }
    (by norm_num) (by decide) (by norm_num) (by decide) (by decide)
    (by decide) (by decide) (by norm_num)

/-- C9 counterexample: with a zero amount, a transfer addressed to the
sender itself fails with `InvalidAmount`, not `SelfTransferNotAllowed`,
because the amount check runs first (WalletService.ts line 114 before
line 131); so the claim does not hold for every amount. -/
theorem self_transfer_zero_amount_cex :
    transferFunds demoStore 1 "alice@example.com" 0 none = .error .invalidAmount
      ∧ (WErr.invalidAmount ≠ WErr.selfTransferNotAllowed) := by
  exact ⟨rfl, by decide⟩

/-- C9 (amended): for every positive amount, when the sender has a wallet
and the recipient email resolves to the sender, the transfer fails with
`SelfTransferNotAllowed` ("Cannot transfer to your own wallet") and the
error outcome carries no store; the self check runs before the recipient
wallet is locked and before the balance check. -/
theorem self_transfer_rejected (s : Store) (senderId : Nat) (email : String)
    (amount : ℚ) (description : Option String) (senderWallet : Wallet)
    (recipientUser : User)
    (hpos : 0 < amount)
    (hsw : s.wallets.find? (fun x => x.user_id == senderId) = some senderWallet)
    (hru : s.users.find? (fun u => u.email == email) = some recipientUser)
    (hself : recipientUser.id = senderId) :
    transferFunds s senderId email amount description
      = .error .selfTransferNotAllowed := by
  have hnle : ¬ amount ≤ 0 := not_le.mpr hpos
  simp [transferFunds, hnle, hsw, hru, hself]

/-- C9 witness: user 1 transferring 5 to its own email fails with
`SelfTransferNotAllowed`. -/
theorem self_transfer_rejected_witness :
    transferFunds demoStore 1 "alice@example.com" 5 none
      = .error .selfTransferNotAllowed :=
  self_transfer_rejected demoStore 1 "alice@example.com" 5 none
    { id := 1, user_id := 1, balance := 100 }
    { id := 1, email := "alice@example.com", phone_number := "+2348000000001" }
    (by norm_num) (by decide) (by decide) rfl

/-- C5: the blacklist check is fail-closed and total.  Every outcome —
thrown fetch (network error or timeout), non-ok HTTP status, malformed
body, or an explicit blacklisted payload — yields a rejection verdict
carrying a human-readable reason, and admission happens exactly when the
response is an ok HTTP response whose payload indicates neither
`status = "blacklisted"` nor `karma.blacklist = true`.  Totality (no
escaping exception) is inherent: `checkBlacklist` is a total function on
all fetch outcomes. -/
theorem blacklist_fail_closed (o : FetchOutcome) :
    ((checkBlacklist o).isBlacklisted = true →
        ((checkBlacklist o).reason).isSome = true)
      ∧ ((checkBlacklist o).isBlacklisted = false ↔
          ∃ d : BlacklistApiResponse, o = .httpResponse true (some d)
            ∧ d.status ≠ some "blacklisted" ∧ d.karmaBlacklist ≠ some true) := by
  cases o with
  | thrown => simp [checkBlacklist]
  | httpResponse ok body =>
    cases ok with
    | false => simp [checkBlacklist]
    | true =>
      cases body with
      | none => simp [checkBlacklist]
      | some d =>
        by_cases h : d.status = some "blacklisted" ∨ d.karmaBlacklist = some true
        · have hb : (d.status == some "blacklisted"
              || d.karmaBlacklist == some true) = true := by
            rcases h with h | h <;> simp [h]
          constructor
          · intro _; simp [checkBlacklist, hb]
          · constructor
            · intro hfalse
              exfalso
              simp [checkBlacklist, hb] at hfalse
            · rintro ⟨d2, hd2, hst, hk⟩
              obtain rfl : d2 = d := by
                simpa using hd2.symm
              rcases h with h | h
              · exact absurd h hst
              · exact absurd h hk
        · push_neg at h
          have hb : (d.status == some "blacklisted"
              || d.karmaBlacklist == some true) = false := by
            simp [h.1, h.2]
          constructor
          · intro htrue
            exfalso
            simp [checkBlacklist, hb] at htrue
          · simp [checkBlacklist, hb, h.1, h.2]

/-- C5 witness: a thrown fetch yields a rejection verdict with a reason. -/
theorem blacklist_fail_closed_witness :
    (checkBlacklist .thrown).isBlacklisted = true
      ∧ ((checkBlacklist .thrown).reason).isSome = true :=
  ⟨by decide, (blacklist_fail_closed .thrown).1 (by decide)⟩

/-- C10: token invalidation is total (a plain function on any table
contents, including an absent or already-inactive token), never deletes a
row (the lengths match and the rows correspond pairwise), leaves every row
either unchanged or equal to the same row with `is_active` cleared, and is
idempotent, for both `invalidateToken` and `invalidateAllUserTokens`. -/
theorem token_invalidation_idempotent (tokens : List AuthToken)
    (token : String) (userId : Nat) :
    (invalidateToken tokens token).length = tokens.length
      ∧ List.Forall₂ (fun a b => b = a ∨ b = { a with is_active := false })
          tokens (invalidateToken tokens token)
      ∧ invalidateToken (invalidateToken tokens token) token
          = invalidateToken tokens token
      ∧ (invalidateAllUserTokens tokens userId).length = tokens.length
      ∧ List.Forall₂ (fun a b => b = a ∨ b = { a with is_active := false })
          tokens (invalidateAllUserTokens tokens userId)
      ∧ invalidateAllUserTokens (invalidateAllUserTokens tokens userId) userId
          = invalidateAllUserTokens tokens userId := by
  refine ⟨by simp [invalidateToken], ?_, ?_, by simp [invalidateAllUserTokens], ?_, ?_⟩
  · induction tokens with
    | nil => exact List.Forall₂.nil
    | cons r l ih =>
      refine List.Forall₂.cons ?_ ih
      by_cases h : r.token == token
      · simp [h]
      · simp [Bool.not_eq_true] at h
        simp [h]
  · simp only [invalidateToken, List.map_map]
    refine List.map_congr_left ?_
    intro r _
    by_cases h : r.token == token
    · simp [Function.comp, h]
    · simp [Bool.not_eq_true] at h
      simp [Function.comp, h]
  · induction tokens with
    | nil => exact List.Forall₂.nil
    | cons r l ih =>
      refine List.Forall₂.cons ?_ ih
      by_cases h : r.user_id == userId
      · simp [h]
      · simp [Bool.not_eq_true] at h
        simp [h]
  · simp only [invalidateAllUserTokens, List.map_map]
    refine List.map_congr_left ?_
    intro r _
    by_cases h : r.user_id == userId
    · simp [Function.comp, h]
    · simp [Bool.not_eq_true] at h
      simp [Function.comp, h]

/-- C6: the lock acquisition order of `transferFunds` is sender-wallet
first, then recipient-wallet, at every call site; on the demo store the
two opposite directions of the same wallet pair therefore acquire the two
row locks in opposite orders ([1, 2] versus [2, 1]) — not the fixed
ascending total order the specification mandates, so the two concurrent
opposite transfers can deadlock. -/
theorem transfer_lock_order_not_total :
    transferLockOrder demoStore 1 "bob@example.com" = some [1, 2]
      ∧ transferLockOrder demoStore 2 "alice@example.com" = some [2, 1]
      ∧ ([2, 1] : List Nat) ≠ [1, 2] := by
  exact ⟨by decide, by decide, by decide⟩

/-- C7: the boundary validator of the wallet controller accepts a positive
amount exactly when it has at most two fractional decimal digits; in
particular 0.015 (three decimals) is rejected while 0.25 and 0.5 are
accepted.  (The balance arithmetic itself, by contrast, is performed on
IEEE-754 doubles via `Number(...)` in the service — see the C7 analysis.) -/
theorem amount_precision_boundary :
    validAmountAtBoundary (mkRat 15 1000) = false
      ∧ validAmountAtBoundary (mkRat 25 100) = true
      ∧ validAmountAtBoundary (mkRat 5 10) = true
      ∧ validAmountAtBoundary (mkRat 1 100) = true := by
  exact ⟨by decide, by decide, by decide, by decide⟩

/-- C8: user creation rejects a duplicate email, then a duplicate phone
number, both before any write (the error outcome carries no store); and a
successful creation returns, in one atomic result, the store holding both
the new user row and its zero-balance wallet — so no reachable store holds
the user without the wallet — and touches nothing else (transactions
unchanged). -/
theorem create_user_conflict_and_atomic (s : Store) (b : BlacklistCheckResult)
    (email phoneNumber : String) :
    ((s.users.find? (fun u => u.email == email)).isSome = true →
        createUser s b email phoneNumber = .error .emailConflict)
      ∧ ((s.users.find? (fun u => u.email == email)).isSome = false →
          (s.users.find? (fun u => u.phone_number == phoneNumber)).isSome = true →
          createUser s b email phoneNumber = .error .phoneConflict)
      ∧ (∀ s2 u, createUser s b email phoneNumber = .ok (s2, u) →
          u.email = email ∧ u.phone_number = phoneNumber
            ∧ s2.users = s.users ++ [u]
            ∧ s2.wallets = s.wallets
                ++ [{ id := s.nextWalletId, user_id := u.id, balance := 0 }]
            ∧ s2.transactions = s.transactions) := by
  refine ⟨?_, ?_, ?_⟩
  · intro h
    simp [createUser, h]
  · intro h1 h2
    simp [createUser, h1, h2]
  · intro s2 u h
    by_cases h1 : (s.users.find? (fun v => v.email == email)).isSome = true
    · simp [createUser, h1] at h
    · rw [Bool.not_eq_true] at h1
      by_cases h2 : (s.users.find? (fun v => v.phone_number == phoneNumber)).isSome = true
      · simp [createUser, h1, h2] at h
      · rw [Bool.not_eq_true] at h2
        by_cases h3 : b.isBlacklisted = true
        · simp [createUser, h1, h2, h3] at h
        · rw [Bool.not_eq_true] at h3
          simp [createUser, createWallet, h1, h2, h3] at h
          obtain ⟨hs2, hu⟩ := h
          subst hu
          subst hs2
          simp

/-- The user record created by the C8 witness run. -/
def demoCarol : User :=
  { id := 3, email := "carol@example.com", phone_number := "+2348000000003" }

/-- The store produced by the C8 witness run of `createUser`. -/
def demoCreateStore : Store :=
  { demoStore with
      users := demoStore.users ++ [demoCarol]
      wallets := demoStore.wallets ++ [{ id := 3, user_id := 3, balance := 0 }]
      nextUserId := 4
      nextWalletId := 4 }

/-- C8 witness: a duplicate email is rejected with `Conflict`, and a
successful creation yields the user row together with its zero-balance
wallet in one result. -/
theorem create_user_conflict_and_atomic_witness :
    createUser demoStore { isBlacklisted := false, reason := none }
        "alice@example.com" "+2348000000009" = .error .emailConflict
      ∧ demoCreateStore.users = demoStore.users ++ [demoCarol]
      ∧ demoCreateStore.wallets = demoStore.wallets
          ++ [{ id := demoStore.nextWalletId, user_id := demoCarol.id, balance := 0 }]
      ∧ demoCreateStore.transactions = demoStore.transactions := by
  have h := create_user_conflict_and_atomic demoStore
    { isBlacklisted := false, reason := none } "carol@example.com" "+2348000000003"
  have happ := h.2.2 demoCreateStore demoCarol rfl
  exact ⟨(create_user_conflict_and_atomic demoStore
      { isBlacklisted := false, reason := none }
      "alice@example.com" "+2348000000009").1 rfl,
    happ.2.2.1, happ.2.2.2.1, happ.2.2.2.2⟩

theorem txSum_cons (t : Transaction) (l : List Transaction) (wid : Nat) (ty : TxType) :
    txSum (t :: l) wid ty
      = (if t.wallet_id = wid ∧ t.type = ty then t.amount else 0) + txSum l wid ty := by
  by_cases h1 : t.wallet_id = wid <;> by_cases h2 : t.type = ty <;>
    simp [txSum, List.filter_cons, h1, h2]

theorem txSum_append (l₁ l₂ : List Transaction) (wid : Nat) (ty : TxType) :
    txSum (l₁ ++ l₂) wid ty = txSum l₁ wid ty + txSum l₂ wid ty := by
  induction l₁ with
  | nil => simp [txSum]
  | cons t l ih => simp only [List.cons_append, txSum_cons, ih]; ring

theorem txSum_eq_zero (l : List Transaction) (wid : Nat) (ty : TxType)
    (h : ∀ t ∈ l, t.wallet_id ≠ wid) : txSum l wid ty = 0 := by
  induction l with
  | nil => rfl
  | cons t l ih =>
    rw [txSum_cons, if_neg, ih, zero_add]
    · intro t2 ht2
      exact h t2 (List.mem_cons_of_mem t ht2)
    · rintro ⟨h1, _⟩
      exact h t (List.mem_cons_self t l) h1

theorem txSum_map_of_preserve (l : List Transaction) (g : Transaction → Transaction)
    (hg : ∀ t, (g t).wallet_id = t.wallet_id ∧ (g t).type = t.type
      ∧ (g t).amount = t.amount) (wid : Nat) (ty : TxType) :
    txSum (l.map g) wid ty = txSum l wid ty := by
  induction l with
  | nil => rfl
  | cons t l ih =>
    rw [List.map_cons, txSum_cons, txSum_cons, (hg t).1, (hg t).2.1, (hg t).2.2, ih]

theorem map_id_of_preserve (l : List Wallet) (f : Wallet → Wallet)
    (hf : ∀ x, (f x).id = x.id) :
    (l.map f).map Wallet.id = l.map Wallet.id := by
  induction l with
  | nil => rfl
  | cons a l ih =>
    simp only [List.map_cons, ih, hf]

/-- Success shape of `fundWallet`: a successful run found the wallet,
had a positive amount, and produced exactly the store with the updated
balance and the appended credit row. -/
theorem fund_ok_shape (s : Store) (userId : Nat) (amount : ℚ) (d : Option String)
    (s2 : Store) (tx : Transaction)
    (h : fundWallet s userId amount d = .ok (s2, tx)) :
    ∃ w, s.wallets.find? (fun x => x.user_id == userId) = some w
      ∧ ¬ amount ≤ 0
      ∧ tx = { id := s.nextTxId, wallet_id := w.id, type := .credit, amount := amount,
               description := d.getD "Wallet funding", balance_before := w.balance,
               balance_after := w.balance + amount, reference_id := none,
               reference_type := "funding" }
      ∧ s2 = { s with
          wallets := s.wallets.map (fun x => if x.id == w.id then
            { x with balance := w.balance + amount } else x),
          transactions := s.transactions ++ [tx],
          nextTxId := s.nextTxId + 1 } := by
  by_cases hle : amount ≤ 0
  · simp [fundWallet, hle] at h
  · rw [fundWallet, if_neg hle] at h
    split at h
    · simp at h
    next w hfind =>
      simp only [Except.ok.injEq, Prod.mk.injEq] at h
      obtain ⟨hs2, htx⟩ := h
      exact ⟨w, hfind, hle, htx.symm, by rw [← hs2, ← htx]⟩

/-- Success shape of `withdrawFunds`. -/
theorem withdraw_ok_shape (s : Store) (userId : Nat) (amount : ℚ) (d : Option String)
    (s2 : Store) (tx : Transaction)
    (h : withdrawFunds s userId amount d = .ok (s2, tx)) :
    ∃ w, s.wallets.find? (fun x => x.user_id == userId) = some w
      ∧ ¬ amount ≤ 0
      ∧ ¬ w.balance < amount
      ∧ tx = { id := s.nextTxId, wallet_id := w.id, type := .debit, amount := amount,
               description := d.getD "Withdrawal", balance_before := w.balance,
               balance_after := w.balance - amount, reference_id := none,
               reference_type := "withdrawal" }
      ∧ s2 = { s with
          wallets := s.wallets.map (fun x => if x.id == w.id then
            { x with balance := w.balance - amount } else x),
          transactions := s.transactions ++ [tx],
          nextTxId := s.nextTxId + 1 } := by
  by_cases hle : amount ≤ 0
  · simp [withdrawFunds, hle] at h
  · rw [withdrawFunds, if_neg hle] at h
    split at h
    · simp at h
    next w hfind =>
      dsimp only at h
      split at h
      · simp at h
      next hlt =>
        simp only [Except.ok.injEq, Prod.mk.injEq] at h
        obtain ⟨hs2, htx⟩ := h
        exact ⟨w, hfind, hle, hlt, htx.symm, by rw [← hs2, ← htx]⟩

/-- Success shape of `transferFunds`: the run resolved the sender wallet,
the recipient user (distinct from the sender) and the recipient wallet,
had a positive amount within the sender balance, and produced exactly the
store with both balances updated and the two cross-referenced legs
appended. -/
theorem transfer_ok_shape (s : Store) (senderId : Nat) (em : String) (amount : ℚ)
    (d : Option String) (s2 : Store) (stx rtx : Transaction)
    (h : transferFunds s senderId em amount d = .ok (s2, stx, rtx)) :
    ∃ sw ru rw,
      s.wallets.find? (fun x => x.user_id == senderId) = some sw
      ∧ s.users.find? (fun u => u.email == em) = some ru
      ∧ ru.id ≠ senderId
      ∧ s.wallets.find? (fun x => x.user_id == ru.id) = some rw
      ∧ ¬ amount ≤ 0
      ∧ ¬ sw.balance < amount
      ∧ stx = { id := s.nextTxId, wallet_id := sw.id, type := .debit,
                amount := amount, description := d.getD ("Transfer to " ++ em),
                balance_before := sw.balance, balance_after := sw.balance - amount,
                reference_id := some (s.nextTxId + 1), reference_type := "transfer" }
      ∧ rtx = { id := s.nextTxId + 1, wallet_id := rw.id, type := .credit,
                amount := amount,
                description := d.getD ("Transfer from " ++ toString senderId),
                balance_before := rw.balance, balance_after := rw.balance + amount,
                reference_id := some s.nextTxId, reference_type := "transfer" }
      ∧ s2 = { s with
          wallets := (s.wallets.map (fun x => if x.id == sw.id then
              { x with balance := sw.balance - amount } else x)).map
            (fun x => if x.id == rw.id then
              { x with balance := rw.balance + amount } else x),
          transactions := (s.transactions
              ++ [{ id := s.nextTxId, wallet_id := sw.id, type := .debit,
                    amount := amount, description := d.getD ("Transfer to " ++ em),
                    balance_before := sw.balance,
                    balance_after := sw.balance - amount,
                    reference_id := none, reference_type := "transfer" }, rtx]).map
            (fun t => if t.id == s.nextTxId then
              { t with reference_id := some (s.nextTxId + 1) } else t),
          nextTxId := s.nextTxId + 2 } := by
  by_cases hle : amount ≤ 0
  · simp [transferFunds, hle] at h
  · rw [transferFunds, if_neg hle] at h
    split at h
    · simp at h
    next sw hsw =>
      split at h
      · simp at h
      next ru hru =>
        split at h
        · simp at h
        next hselfb =>
          have hself : ru.id ≠ senderId := by simpa using hselfb
          split at h
          · simp at h
          next rcptW hrw =>
            dsimp only at h
            split at h
            · simp at h
            next hbal =>
              simp only [Except.ok.injEq, Prod.mk.injEq] at h
              obtain ⟨hs2, hstx, hrtx⟩ := h
              refine ⟨sw, ru, rcptW, hsw, hru, hself, hrw, hle, hbal, hstx.symm,
                hrtx.symm, ?_⟩
              rw [← hs2, ← hrtx]

/-- C1: a successful transfer of a positive amount appends exactly two
transaction rows — a debit leg with `balance_after = balance_before -
amount` on the sender wallet and a credit leg with `balance_after =
balance_before + amount` on the recipient wallet — in the same atomic
result as both balance updates (the result store shows the sender wallet
at the debit leg's `balance_after` and the recipient wallet at the credit
leg's `balance_after`); the legs carry the identical amount and reference
each other via `reference_id`. -/
theorem transfer_two_legs (s : Store) (senderId : Nat) (recipientEmail : String)
    (amount : ℚ) (description : Option String) (s2 : Store)
    (stx rtx : Transaction)
    (hok : StoreOk s)
    (h : transferFunds s senderId recipientEmail amount description
        = .ok (s2, stx, rtx)) :
    s2.transactions = s.transactions ++ [stx, rtx]
      ∧ stx.type = .debit ∧ rtx.type = .credit
      ∧ stx.amount = amount ∧ rtx.amount = amount
      ∧ 0 < amount
      ∧ stx.balance_after = stx.balance_before - amount
      ∧ rtx.balance_after = rtx.balance_before + amount
      ∧ stx.reference_id = some rtx.id
      ∧ rtx.reference_id = some stx.id
      ∧ stx.wallet_id ≠ rtx.wallet_id
      ∧ (∀ x ∈ s2.wallets,
          (x.id = stx.wallet_id → x.balance = stx.balance_after)
            ∧ (x.id = rtx.wallet_id → x.balance = rtx.balance_after)) := by
  obtain ⟨sw, ru, rcptW, hsw, hru, hself, hrw, hle, hbal, hstx, hrtx, hs2⟩ :=
    transfer_ok_shape s senderId recipientEmail amount description s2 stx rtx h
  have hswm : sw ∈ s.wallets := List.mem_of_find?_eq_some hsw
  have hrwm : rcptW ∈ s.wallets := List.mem_of_find?_eq_some hrw
  have hswu : sw.user_id = senderId := by
    have := List.find?_some hsw
    simpa using this
  have hrwu : rcptW.user_id = ru.id := by
    have := List.find?_some hrw
    simpa using this
  have hwne : sw ≠ rcptW := by
    intro e
    exact hself (by rw [← hrwu, ← e, hswu])
  have hidne : sw.id ≠ rcptW.id := by
    intro e
    exact hwne (List.inj_on_of_nodup_map hok.1 hswm hrwm e)
  have htxs : s2.transactions = s.transactions ++ [stx, rtx] := by
    rw [hs2]
    show ((s.transactions ++ [_, _]).map _) = _
    rw [List.map_append]
    have hold : s.transactions.map
        (fun t => if t.id == s.nextTxId then
          { t with reference_id := some (s.nextTxId + 1) } else t)
        = s.transactions.map id := by
      refine List.map_congr_left ?_
      intro t ht
      have hlt : t.id < s.nextTxId := hok.2.2.2 t ht
      simp [Nat.ne_of_lt hlt]
    rw [hold, List.map_id, hstx, hrtx]
    simp [Nat.succ_ne_self]
  refine ⟨htxs, by rw [hstx], by rw [hrtx], by rw [hstx], by rw [hrtx],
    lt_of_not_le hle, by rw [hstx], by rw [hrtx], ?_, ?_, ?_, ?_⟩
  · rw [hstx, hrtx]
  · rw [hstx, hrtx]
  · rw [hstx, hrtx]
    exact hidne
  · intro x hx
    rw [hs2] at hx
    simp only [List.map_map, List.mem_map] at hx
    obtain ⟨y, hy, hxy⟩ := hx
    rw [hstx, hrtx]
    dsimp only
    by_cases h1 : y.id = sw.id
    · have : x = { y with balance := sw.balance - amount } := by
        rw [← hxy]
        simp [Function.comp, h1, hidne]
      subst this
      constructor
      · intro _; rfl
      · intro hcontra
        exact absurd (h1.symm.trans hcontra) hidne
    · by_cases h2 : y.id = rcptW.id
      · have : x = { y with balance := rcptW.balance + amount } := by
          rw [← hxy]
          simp [Function.comp, h1, h2, Ne.symm hidne]
        subst this
        constructor
        · intro hcontra
          exact absurd hcontra h1
        · intro _; rfl
      · have : x = y := by
          rw [← hxy]
          simp [Function.comp, h1, h2]
        subst this
        exact ⟨fun e => absurd e h1, fun e => absurd e h2⟩

/-- The debit leg produced by the C1 witness transfer. -/
def demoTransferSenderTx : Transaction :=
  { id := 1, wallet_id := 1, type := .debit, amount := 40, description := "gift",
    balance_before := 100, balance_after := 100 - 40, reference_id := some 2,
    reference_type := "transfer" }

/-- The credit leg produced by the C1 witness transfer. -/
def demoTransferRecipientTx : Transaction :=
  { id := 2, wallet_id := 2, type := .credit, amount := 40, description := "gift",
    balance_before := 0, balance_after := 0 + 40, reference_id := some 1,
    reference_type := "transfer" }

/-- The store produced by the C1 witness transfer. -/
def demoTransferStore : Store :=
  { users := demoStore.users
    wallets := [ { id := 1, user_id := 1, balance := 100 - 40 }
               , { id := 2, user_id := 2, balance := 0 + 40 } ]
    transactions := demoStore.transactions
      ++ [demoTransferSenderTx, demoTransferRecipientTx]
    nextUserId := 3
    nextWalletId := 3
    nextTxId := 3 }

/-- C1 witness: transferring 40 from user 1 to user 2 appends exactly the
two cross-referenced legs with the identical amount. -/
theorem transfer_two_legs_witness :
    demoTransferStore.transactions
        = demoStore.transactions ++ [demoTransferSenderTx, demoTransferRecipientTx]
      ∧ demoTransferSenderTx.reference_id = some demoTransferRecipientTx.id
      ∧ demoTransferRecipientTx.reference_id = some demoTransferSenderTx.id
      ∧ demoTransferSenderTx.amount = demoTransferRecipientTx.amount := by
  have h := transfer_two_legs demoStore 1 "bob@example.com" 40 (some "gift")
    demoTransferStore demoTransferSenderTx demoTransferRecipientTx (by decide) rfl
  exact ⟨h.1, h.2.2.2.2.2.2.2.2.1, h.2.2.2.2.2.2.2.2.2.1,
    by rw [h.2.2.2.1, h.2.2.2.2.1]⟩

theorem txSum_append_single (l : List Transaction) (t : Transaction)
    (wid : Nat) (ty : TxType) :
    txSum (l ++ [t]) wid ty
      = txSum l wid ty
        + (if t.wallet_id = wid ∧ t.type = ty then t.amount else 0) := by
  rw [txSum_append, txSum_cons]
  simp [txSum]

/-- `fundWallet` preserves the reconciliation invariant and the structural
store invariant. -/
theorem fund_preserves (s : Store) (userId : Nat) (amount : ℚ) (d : Option String)
    (s2 : Store) (tx : Transaction) (hok : StoreOk s) (hrec : reconciled s)
    (h : fundWallet s userId amount d = .ok (s2, tx)) :
    reconciled s2 ∧ StoreOk s2 := by
  obtain ⟨w, hfind, hle, htx, hs2⟩ := fund_ok_shape s userId amount d s2 tx h
  have hpos : 0 < amount := lt_of_not_le hle
  have hwm : w ∈ s.wallets := List.mem_of_find?_eq_some hfind
  have hwrec := hrec w hwm
  subst htx
  subst hs2
  constructor
  · intro x hx
    simp only [List.mem_map] at hx
    obtain ⟨y, hy, hxy⟩ := hx
    have hyrec := hrec y hy
    refine ⟨?_, ?_⟩
    · dsimp only
      rw [txSum_append_single, txSum_append_single]
      dsimp only
      by_cases hc : y.id = w.id
      · have hx2 : x = { y with balance := w.balance + amount } := by
          rw [← hxy]; simp [hc]
        subst hx2
        dsimp only
        rw [if_pos ⟨hc.symm, rfl⟩, if_neg (by rintro ⟨_, hcd⟩; cases hcd)]
        have h1 := hwrec.1
        rw [hc]
        linarith
      · have hx2 : x = y := by
          rw [← hxy]; simp [hc]
        subst hx2
        rw [if_neg (by rintro ⟨hcw, _⟩; exact hc hcw.symm),
          if_neg (by rintro ⟨hcw, _⟩; exact hc hcw.symm)]
        have h1 := hyrec.1
        linarith
    · by_cases hc : y.id = w.id
      · have hx2 : x = { y with balance := w.balance + amount } := by
          rw [← hxy]; simp [hc]
        subst hx2
        have := hwrec.2
        show 0 ≤ w.balance + amount
        linarith
      · have hx2 : x = y := by
          rw [← hxy]; simp [hc]
        subst hx2
        exact hyrec.2
  · obtain ⟨hnd, hwb, htw, hti⟩ := hok
    refine ⟨?_, ?_, ?_, ?_⟩
    · show ((s.wallets.map _).map Wallet.id).Nodup
      rw [List.map_map]
      have : (Wallet.id ∘ fun x => if x.id == w.id then
          { x with balance := w.balance + amount } else x) = Wallet.id := by
        funext x
        by_cases hc : x.id = w.id <;> simp [Function.comp, hc]
      rw [this]
      exact hnd
    · intro x hx
      simp only [List.mem_map] at hx
      obtain ⟨y, hy, hxy⟩ := hx
      have : x.id = y.id := by
        rw [← hxy]
        by_cases hc : y.id = w.id <;> simp [hc]
      rw [this]
      exact hwb y hy
    · intro t ht
      simp only [List.mem_append, List.mem_singleton] at ht
      rcases ht with ht | ht
      · exact htw t ht
      · rw [ht]
        exact hwb w hwm
    · intro t ht
      simp only [List.mem_append, List.mem_singleton] at ht
      rcases ht with ht | ht
      · exact Nat.lt_succ_of_lt (hti t ht)
      · rw [ht]
        exact Nat.lt_succ_self _

/-- `withdrawFunds` preserves the reconciliation invariant and the
structural store invariant. -/
theorem withdraw_preserves (s : Store) (userId : Nat) (amount : ℚ)
    (d : Option String) (s2 : Store) (tx : Transaction)
    (hok : StoreOk s) (hrec : reconciled s)
    (h : withdrawFunds s userId amount d = .ok (s2, tx)) :
    reconciled s2 ∧ StoreOk s2 := by
  obtain ⟨w, hfind, hle, hlt, htx, hs2⟩ := withdraw_ok_shape s userId amount d s2 tx h
  have hwm : w ∈ s.wallets := List.mem_of_find?_eq_some hfind
  have hwrec := hrec w hwm
  have hge : amount ≤ w.balance := le_of_not_lt hlt
  subst htx
  subst hs2
  constructor
  · intro x hx
    simp only [List.mem_map] at hx
    obtain ⟨y, hy, hxy⟩ := hx
    have hyrec := hrec y hy
    refine ⟨?_, ?_⟩
    · dsimp only
      rw [txSum_append_single, txSum_append_single]
      dsimp only
      by_cases hc : y.id = w.id
      · have hx2 : x = { y with balance := w.balance - amount } := by
          rw [← hxy]; simp [hc]
        subst hx2
        dsimp only
        rw [if_neg (by rintro ⟨_, hcd⟩; cases hcd), if_pos ⟨hc.symm, rfl⟩]
        have h1 := hwrec.1
        rw [hc]
        linarith
      · have hx2 : x = y := by
          rw [← hxy]; simp [hc]
        subst hx2
        rw [if_neg (by rintro ⟨hcw, _⟩; exact hc hcw.symm),
          if_neg (by rintro ⟨hcw, _⟩; exact hc hcw.symm)]
        have h1 := hyrec.1
        linarith
    · by_cases hc : y.id = w.id
      · have hx2 : x = { y with balance := w.balance - amount } := by
          rw [← hxy]; simp [hc]
        subst hx2
        show 0 ≤ w.balance - amount
        linarith
      · have hx2 : x = y := by
          rw [← hxy]; simp [hc]
        subst hx2
        exact hyrec.2
  · obtain ⟨hnd, hwb, htw, hti⟩ := hok
    refine ⟨?_, ?_, ?_, ?_⟩
    · show ((s.wallets.map _).map Wallet.id).Nodup
      rw [List.map_map]
      have : (Wallet.id ∘ fun x => if x.id == w.id then
          { x with balance := w.balance - amount } else x) = Wallet.id := by
        funext x
        by_cases hc : x.id = w.id <;> simp [Function.comp, hc]
      rw [this]
      exact hnd
    · intro x hx
      simp only [List.mem_map] at hx
      obtain ⟨y, hy, hxy⟩ := hx
      have : x.id = y.id := by
        rw [← hxy]
        by_cases hc : y.id = w.id <;> simp [hc]
      rw [this]
      exact hwb y hy
    · intro t ht
      simp only [List.mem_append, List.mem_singleton] at ht
      rcases ht with ht | ht
      · exact htw t ht
      · rw [ht]
        exact hwb w hwm
    · intro t ht
      simp only [List.mem_append, List.mem_singleton] at ht
      rcases ht with ht | ht
      · exact Nat.lt_succ_of_lt (hti t ht)
      · rw [ht]
        exact Nat.lt_succ_self _

/-- `transferFunds` preserves the reconciliation invariant and the
structural store invariant. -/
theorem transfer_preserves (s : Store) (senderId : Nat) (em : String)
    (amount : ℚ) (d : Option String) (s2 : Store) (stx rtx : Transaction)
    (hok : StoreOk s) (hrec : reconciled s)
    (h : transferFunds s senderId em amount d = .ok (s2, stx, rtx)) :
    reconciled s2 ∧ StoreOk s2 := by
  obtain ⟨sw, ru, rcptW, hsw, hru, hself, hrw, hle, hbal, hstx, hrtx, hs2⟩ :=
    transfer_ok_shape s senderId em amount d s2 stx rtx h
  have hpos : 0 < amount := lt_of_not_le hle
  have hswm : sw ∈ s.wallets := List.mem_of_find?_eq_some hsw
  have hrwm : rcptW ∈ s.wallets := List.mem_of_find?_eq_some hrw
  have hswu : sw.user_id = senderId := by
    have := List.find?_some hsw
    simpa using this
  have hrwu : rcptW.user_id = ru.id := by
    have := List.find?_some hrw
    simpa using this
  have hwne : sw ≠ rcptW := by
    intro e
    exact hself (by rw [← hrwu, ← e, hswu])
  have hidne : sw.id ≠ rcptW.id := by
    intro e
    exact hwne (List.inj_on_of_nodup_map hok.1 hswm hrwm e)
  have hsrec := hrec sw hswm
  have hrrec := hrec rcptW hrwm
  subst hrtx
  subst hstx
  subst hs2
  have hT : ∀ (wid : Nat) (ty : TxType),
      txSum ((s.transactions
          ++ ([{
                 id := s.nextTxId, wallet_id := sw.id, type := TxType.debit,
                 amount := amount, description := d.getD ("Transfer to " ++ em),
                 balance_before := sw.balance, balance_after := sw.balance - amount,
                 reference_id := none, reference_type := "transfer" },
               {
                 id := s.nextTxId + 1, wallet_id := rcptW.id, type := TxType.credit,
                 amount := amount,
                 description := d.getD ("Transfer from " ++ toString senderId),
                 balance_before := rcptW.balance,
                 balance_after := rcptW.balance + amount,
                 reference_id := some s.nextTxId,
                 reference_type := "transfer" }] : List Transaction)).map
          (fun t : Transaction => if t.id == s.nextTxId then
            { t with reference_id := some (s.nextTxId + 1) } else t)) wid ty
        = txSum s.transactions wid ty
          + (if sw.id = wid ∧ TxType.debit = ty then amount else 0)
          + (if rcptW.id = wid ∧ TxType.credit = ty then amount else 0) := by
    intro wid ty
    rw [txSum_map_of_preserve _ _ ?hg wid ty]
    case hg =>
      intro t
      by_cases hc : t.id = s.nextTxId <;> simp [hc]
    rw [txSum_append, txSum_cons, txSum_cons]
    dsimp only
    have hnil : txSum [] wid ty = 0 := rfl
    rw [hnil]
    ring
  constructor
  · intro x hx
    simp only [List.map_map, List.mem_map] at hx
    obtain ⟨y, hy, hxy⟩ := hx
    have hyrec := hrec y hy
    by_cases h1 : y.id = sw.id
    · have hx2 : x = { y with balance := sw.balance - amount } := by
        rw [← hxy]
        simp [Function.comp, h1, hidne]
      subst hx2
      refine ⟨?_, ?_⟩
      · dsimp only
        rw [hT, hT]
        rw [if_neg (show ¬ (sw.id = y.id ∧ TxType.debit = TxType.credit) by
              rintro ⟨_, hcd⟩; cases hcd),
          if_neg (show ¬ (rcptW.id = y.id ∧ TxType.credit = TxType.credit) by
              rintro ⟨hcw, _⟩; exact hidne ((hcw.trans h1).symm)),
          if_pos (show sw.id = y.id ∧ TxType.debit = TxType.debit from ⟨h1.symm, rfl⟩),
          if_neg (show ¬ (rcptW.id = y.id ∧ TxType.credit = TxType.debit) by
              rintro ⟨_, hcd⟩; cases hcd)]
        have he := hsrec.1
        rw [h1]
        linarith
      · show 0 ≤ sw.balance - amount
        have := hsrec.2
        linarith [le_of_not_lt hbal]
    · by_cases h2 : y.id = rcptW.id
      · have hx2 : x = { y with balance := rcptW.balance + amount } := by
          rw [← hxy]
          simp [Function.comp, h1, h2, Ne.symm hidne]
        subst hx2
        refine ⟨?_, ?_⟩
        · dsimp only
          rw [hT, hT]
          rw [if_neg (show ¬ (sw.id = y.id ∧ TxType.debit = TxType.credit) by
                rintro ⟨_, hcd⟩; cases hcd),
            if_pos (show rcptW.id = y.id ∧ TxType.credit = TxType.credit from
              ⟨h2.symm, rfl⟩),
            if_neg (show ¬ (sw.id = y.id ∧ TxType.debit = TxType.debit) by
                rintro ⟨hcw, _⟩; exact h1 hcw.symm),
            if_neg (show ¬ (rcptW.id = y.id ∧ TxType.credit = TxType.debit) by
                rintro ⟨_, hcd⟩; cases hcd)]
          have he := hrrec.1
          rw [h2]
          linarith
        · show 0 ≤ rcptW.balance + amount
          have := hrrec.2
          linarith
      · have hx2 : x = y := by
          rw [← hxy]
          simp [Function.comp, h1, h2]
        refine ⟨?_, ?_⟩
        · rw [hx2]
          dsimp only
          rw [hT, hT]
          rw [if_neg (show ¬ (sw.id = y.id ∧ TxType.debit = TxType.credit) by
                rintro ⟨hcw, _⟩; exact h1 hcw.symm),
            if_neg (show ¬ (rcptW.id = y.id ∧ TxType.credit = TxType.credit) by
                rintro ⟨hcw, _⟩; exact h2 hcw.symm),
            if_neg (show ¬ (sw.id = y.id ∧ TxType.debit = TxType.debit) by
                rintro ⟨hcw, _⟩; exact h1 hcw.symm),
            if_neg (show ¬ (rcptW.id = y.id ∧ TxType.credit = TxType.debit) by
                rintro ⟨hcw, _⟩; exact h2 hcw.symm)]
          have he := hyrec.1
          linarith
        · rw [hx2]
          exact hyrec.2
  · obtain ⟨hnd, hwb, htw, hti⟩ := hok
    have hf : ∀ x : Wallet, ((fun x : Wallet => if x.id == sw.id then
        { x with balance := sw.balance - amount } else x) x).id = x.id := by
      intro x
      by_cases hc : x.id = sw.id <;> simp [hc]
    have hg : ∀ x : Wallet, ((fun x : Wallet => if x.id == rcptW.id then
        { x with balance := rcptW.balance + amount } else x) x).id = x.id := by
      intro x
      by_cases hc : x.id = rcptW.id <;> simp [hc]
    refine ⟨?_, ?_, ?_, ?_⟩
    · show (((s.wallets.map _).map _).map Wallet.id).Nodup
      rw [map_id_of_preserve _ _ hg, map_id_of_preserve _ _ hf]
      exact hnd
    · intro x hx
      simp only [List.map_map, List.mem_map] at hx
      obtain ⟨y, hy, hxy⟩ := hx
      have hxid : x.id = y.id := by
        rw [← hxy]
        simp only [Function.comp_apply]
        rw [hg, hf]
      rw [hxid]
      exact hwb y hy
    · intro t ht
      simp only [List.mem_map, List.mem_append, List.mem_singleton,
        List.mem_cons, List.not_mem_nil, or_false] at ht
      obtain ⟨t0, ht0, hteq⟩ := ht
      have hid : t.wallet_id = t0.wallet_id := by
        rw [← hteq]
        by_cases hc : t0.id = s.nextTxId <;> simp [hc]
      rw [hid]
      rcases ht0 with ht0 | ht0 | ht0
      · exact htw t0 ht0
      · rw [ht0]
        exact hwb sw hswm
      · rw [ht0]
        exact hwb rcptW hrwm
    · intro t ht
      simp only [List.mem_map, List.mem_append, List.mem_singleton,
        List.mem_cons, List.not_mem_nil, or_false] at ht
      obtain ⟨t0, ht0, hteq⟩ := ht
      have hid : t.id = t0.id := by
        rw [← hteq]
        by_cases hc : t0.id = s.nextTxId <;> simp [hc]
      show t.id < s.nextTxId + 2
      rw [hid]
      rcases ht0 with ht0 | ht0 | ht0
      · have := hti t0 ht0
        omega
      · rw [ht0]
        dsimp only
        omega
      · rw [ht0]
        dsimp only
        omega

/-- `createWallet` yields a zero-balance wallet whose transaction log is
empty, and preserves both invariants. -/
theorem createWallet_props (s : Store) (userId : Nat)
    (hok : StoreOk s) (hrec : reconciled s) :
    (createWallet s userId).2.balance = 0
      ∧ (createWallet s userId).1.transactions.filter
          (fun t => t.wallet_id == (createWallet s userId).2.id) = []
      ∧ reconciled (createWallet s userId).1
      ∧ StoreOk (createWallet s userId).1 := by
  obtain ⟨hnd, hwb, htw, hti⟩ := hok
  refine ⟨rfl, ?_, ?_, ?_⟩
  · rw [List.filter_eq_nil_iff]
    intro t ht
    have hb := htw t ht
    simp only [beq_iff_eq]
    show ¬ t.wallet_id = s.nextWalletId
    omega
  · intro x hx
    rcases List.mem_append.mp hx with hx | hx
    · exact hrec x hx
    · have hx2 : x = { id := s.nextWalletId, user_id := userId, balance := 0 } := by
        simpa using hx
      subst hx2
      refine ⟨?_, le_refl 0⟩
      show (0 : ℚ) = txSum s.transactions s.nextWalletId TxType.credit
          - txSum s.transactions s.nextWalletId TxType.debit
      rw [txSum_eq_zero, txSum_eq_zero]
      · ring
      · intro t ht
        have := htw t ht
        omega
      · intro t ht
        have := htw t ht
        omega
  · refine ⟨?_, ?_, ?_, ?_⟩
    · show ((s.wallets
          ++ [({ id := s.nextWalletId, user_id := userId, balance := 0 } : Wallet)]).map
          Wallet.id).Nodup
      rw [List.map_append, List.nodup_append]
      refine ⟨hnd, List.nodup_singleton _, ?_⟩
      intro a ha hb
      simp only [List.map_cons, List.map_nil, List.mem_singleton] at hb
      subst hb
      simp only [List.mem_map] at ha
      obtain ⟨y, hy, hyid⟩ := ha
      have := hwb y hy
      omega
    · intro w hw
      rcases List.mem_append.mp hw with hw | hw
      · exact Nat.lt_succ_of_lt (hwb w hw)
      · have hw2 : w = { id := s.nextWalletId, user_id := userId, balance := 0 } := by
          simpa using hw
        subst hw2
        exact Nat.lt_succ_self _
    · intro t ht
      exact Nat.lt_succ_of_lt (htw t ht)
    · intro t ht
      exact hti t ht

/-- C2: on every store satisfying the structural schema invariant and the
reconciliation invariant, each completed operation maintains them: a fresh
wallet starts at balance 0 with an empty transaction log, and after a
successful fund, withdraw, or transfer, every wallet balance equals the
sum of its credit amounts minus the sum of its debit amounts over its
transaction log and is never negative. -/
theorem ledger_reconciliation (s : Store) (userId senderId : Nat)
    (recipientEmail : String) (amount : ℚ) (description : Option String)
    (hok : StoreOk s) (hrec : reconciled s) :
    ((createWallet s userId).2.balance = 0
      ∧ (createWallet s userId).1.transactions.filter
          (fun t => t.wallet_id == (createWallet s userId).2.id) = []
      ∧ reconciled (createWallet s userId).1
      ∧ StoreOk (createWallet s userId).1)
    ∧ (∀ s2 tx, fundWallet s userId amount description = .ok (s2, tx) →
        reconciled s2 ∧ StoreOk s2)
    ∧ (∀ s2 tx, withdrawFunds s userId amount description = .ok (s2, tx) →
        reconciled s2 ∧ StoreOk s2)
    ∧ (∀ s2 stx rtx,
        transferFunds s senderId recipientEmail amount description
          = .ok (s2, stx, rtx) →
        reconciled s2 ∧ StoreOk s2) :=
  ⟨createWallet_props s userId hok hrec,
   fun s2 tx h => fund_preserves s userId amount description s2 tx hok hrec h,
   fun s2 tx h => withdraw_preserves s userId amount description s2 tx hok hrec h,
   fun s2 stx rtx h =>
     transfer_preserves s senderId recipientEmail amount description s2 stx rtx
       hok hrec h⟩

/-- The credit row produced by the C2 witness funding. -/
def demoFundTx : Transaction :=
  { id := 1, wallet_id := 2, type := .credit, amount := 25,
    description := "top-up", balance_before := 0, balance_after := 0 + 25,
    reference_id := none, reference_type := "funding" }

/-- The store produced by the C2 witness funding of wallet 2 with 25. -/
def demoFundStore : Store :=
  { users := demoStore.users
    wallets := [ { id := 1, user_id := 1, balance := 100 }
               , { id := 2, user_id := 2, balance := 0 + 25 } ]
    transactions := demoStore.transactions ++ [demoFundTx]
    nextUserId := 3
    nextWalletId := 3
    nextTxId := 2 }

/-- C2 witness: the demo store satisfies both invariants, and funding
wallet 2 with 25 preserves them. -/
theorem ledger_reconciliation_witness :
    StoreOk demoStore ∧ reconciled demoStore
      ∧ reconciled demoFundStore ∧ StoreOk demoFundStore := by
  have hok : StoreOk demoStore := by decide
  have hrec : reconciled demoStore := by
    intro w hw
    simp only [demoStore, List.mem_cons, List.not_mem_nil, or_false] at hw
    rcases hw with hw | hw <;> subst hw <;>
      refine ⟨?_, by norm_num⟩ <;>
      simp [txSum, demoStore, List.filter_cons, List.filter_nil]
  have happ := (ledger_reconciliation demoStore 2 1 "bob@example.com" 25
    (some "top-up") hok hrec).2.1 demoFundStore demoFundTx rfl
  exact ⟨hok, hrec, happ.1, happ.2⟩

end LedgerSpec
